import Mathlib

/-!
Shallow embedding of the `html_parser` module of `ai-politic-analyser`
(`src/ai_politic_analyser/modules/html_parser/parser.py` and `exceptions.py`).

The DOM produced by the external DOM Access Layer (BeautifulSoup over lxml) is
modelled by the inductive type `Node`; the BeautifulSoup object itself is an
element node with tag `"[document]"` whose children are the top-level parsed
nodes, exactly as in bs4.  Python strings are Lean `String`s; `str.strip`,
`str.lower`, the substring test `a in b` and `str.split()` are re-implemented
over `List Char` (`pyStrip`, `pyLower`, `strContains`, `splitWS`) so that every
definition evaluates by kernel reduction.  `pyStrip` strips the whitespace
characters relevant to this code base (space, tab, CR, LF); `pyLower` lowers
ASCII letters, which is what the parser's fixed ASCII vocabularies exercise.

Exceptions are modelled by `Exc` (a class, a message, and an optional
`__cause__`), with the class hierarchy of `exceptions.py` reflected in
`ExcClass`/`isHTMLParsingErrorInstance`.  `parse` takes the result of the DOM
Access Layer as an explicit `Except Exc Node` argument, since the tokenizing
step is an external collaborator.
-/

namespace AIPA

/-! ### Python string primitives -/

/-- Python `str.strip()` on the character list (space, tab, CR, LF). -/
def trimChars (cs : List Char) : List Char :=
  ((cs.dropWhile Char.isWhitespace).reverse.dropWhile Char.isWhitespace).reverse

/-- Python `str.strip()`. -/
def pyStrip (s : String) : String := String.mk (trimChars s.toList)

/-- Lower-case an ASCII letter, as Python `str.lower()` does on the parser's
ASCII vocabulary. -/
def lowerChar (c : Char) : Char :=
  if 'A' ≤ c ∧ c ≤ 'Z' then Char.ofNat (c.toNat + 32) else c

/-- Python `str.lower()`. -/
def pyLower (s : String) : String := String.mk (s.toList.map lowerChar)

/-- Python substring containment `needle in hay`. -/
def strContains (hay needle : String) : Bool :=
  hay.toList.tails.any (fun t => needle.toList.isPrefixOf t)

/-- Worker for `splitWS`; `cur` holds the current token reversed. -/
def splitWSAux (cur : List Char) (acc : List String) : List Char → List String
  | [] => if cur.isEmpty then acc else acc ++ [String.mk cur.reverse]
  | c :: cs =>
    if Char.isWhitespace c then
      if cur.isEmpty then splitWSAux [] acc cs
      else splitWSAux [] (acc ++ [String.mk cur.reverse]) cs
    else splitWSAux (c :: cur) acc cs

/-- Python `str.split()` (split on whitespace runs, dropping empty tokens);
this is how bs4 tokenizes a `class` attribute value into its token list. -/
def splitWS (s : String) : List String := splitWSAux [] [] s.toList

/-! ### The DOM model -/

/-- A bs4 DOM node: an element (`Tag`) with tag name, attribute mapping and
ordered children, a text node (`NavigableString`), or a `Comment`. -/
inductive Node where
  | element (tag : String) (attrs : List (String × String)) (children : List Node)
  | text (s : String)
  | comment (s : String)

/- Number of nodes in a subtree; used to assign each node a stable pre-order
index (the spec's "arena index" replacement for Python `id()`). -/
mutual
def nodeSize : Node → Nat
  | .element _ _ cs => 1 + nodeSizeL cs
  | .text _ => 1
  | .comment _ => 1
def nodeSizeL : List Node → Nat
  | [] => 0
  | c :: cs => nodeSize c + nodeSizeL cs
end

def childrenOf : Node → List Node
  | .element _ _ cs => cs
  | _ => []

def tagOf : Node → String
  | .element t _ _ => t
  | _ => ""

/-- Python truthiness of a bs4 node: a `Tag` is truthy iff it has children
(`Tag.__len__` is the number of direct children), a string node iff it is
non-empty. -/
def nodeTruthy : Node → Bool
  | .element _ _ cs => !cs.isEmpty
  | .text s => !s.toList.isEmpty
  | .comment s => !s.toList.isEmpty

/-- `element.attrs.get(k)`. -/
def getAttrOpt (attrs : List (String × String)) (k : String) : Option String :=
  (attrs.find? (fun p => p.1 == k)).map (fun p => p.2)

/-- `element.get(k, '')` for string-valued attributes. -/
def getAttrStr (attrs : List (String × String)) (k : String) : String :=
  (getAttrOpt attrs k).getD ""

/-- `element.get('class', [])`: the whitespace-token list of the class
attribute, `[]` when the attribute is absent. -/
def getClasses (attrs : List (String × String)) : List String :=
  match getAttrOpt attrs "class" with
  | none => []
  | some v => splitWS v

/-! ### Configuration sets (`_setup_removal_rules`) -/

/-- `self.remove_elements`. -/
def remove_elements : List String :=
  ["script", "style", "noscript", "meta", "link", "title",
   "head", "nav", "footer", "aside", "form", "input",
   "button", "select", "textarea", "iframe", "object", "embed"]

/-- `self.technical_classes`. -/
def technical_classes : List String :=
  ["nav", "navigation", "menu", "sidebar", "footer", "header",
   "advertisement", "ad"]

/-- `self.content_table_indicators`. -/
def content_table_indicators : List String :=
  ["data", "results", "statistics", "stats", "comparison",
   "schedule", "timeline", "budget", "financial", "economic"]

/-- `self.technical_table_indicators`. -/
def technical_table_indicators : List String :=
  ["nav", "menu", "layout", "grid", "controls", "buttons"]

/-! ### Text extraction (`get_text`) -/

/- The raw strings of all descendant text nodes in pre-order.  Comments are
excluded, as bs4's `Tag.get_text`/`_all_strings` only yields nodes whose type
is exactly `NavigableString`. -/
mutual
def textStrings : Node → List String
  | .text s => [s]
  | .comment _ => []
  | .element _ _ cs => textStringsL cs
def textStringsL : List Node → List String
  | [] => []
  | c :: cs => textStrings c ++ textStringsL cs
end

/-- bs4 `element.get_text(strip=True)`: concatenation (no separator) of each
descendant string stripped, dropping strings that strip to empty. -/
def getTextStrip (n : Node) : String :=
  String.join (((textStrings n).map pyStrip).filter (fun s => s ≠ ""))

/-- bs4 `element.get_text()` (no strip): concatenation of the raw strings. -/
def getTextRaw (n : Node) : String :=
  String.join (textStrings n)

/-! ### The technical-filter pass (`_remove_technical_elements`) -/

/-- The class filter actually used by the removal pass
`soup.find_all(class_=lambda x: x and class_name in x)`: bs4 calls the lambda
once on every whitespace token of the class attribute and once on the
space-joined token string, and `class_name in x` is Python's substring test. -/
def class_removal_match (attrs : List (String × String)) : Bool :=
  match getAttrOpt attrs "class" with
  | none => false
  | some v =>
    let toks := splitWS v
    technical_classes.any (fun cname =>
      toks.any (fun tok => strContains tok cname) ||
        strContains (String.intercalate " " toks) cname)

/-- Whether one removal pass of `_remove_technical_elements` detaches this
node: a `Comment`, an element whose tag is in `remove_elements`, or an element
matched by the class lambda.  The three `find_all`/`decompose` loops are
order-independent because each test is local to the node, so they amount to one
pruning pass with this disjunction. -/
def node_removed : Node → Bool
  | .comment _ => true
  | .text _ => false
  | .element t a _ => t ∈ remove_elements || class_removal_match a

/- `_remove_technical_elements(soup)`: prune every removed node (together
with its whole subtree) from the tree. -/
mutual
def remove_technical_elements : Node → Node
  | .element t a cs => .element t a (remove_technical_children cs)
  | .text s => .text s
  | .comment s => .comment s
def remove_technical_children : List Node → List Node
  | [] => []
  | c :: cs =>
    if node_removed c then remove_technical_children cs
    else remove_technical_elements c :: remove_technical_children cs
end

/-- `_is_technical_element(element)`: the defensive re-check used during
extraction — tag membership after lowering, and exact token membership of a
technical class in the element's class-token list. -/
def is_technical_element : Node → Bool
  | .element t a _ =>
    pyLower t ∈ remove_elements ||
      technical_classes.any (fun c => c ∈ getClasses a)
  | _ => false

/-! ### `find` with pre-order indices -/

/- First descendant element named `tag` of a node sitting at pre-order index
`i` (children occupy indices from `i + 1`), returned with its own pre-order
index; models bs4 `node.find(tag)`. -/
mutual
def findIdxIn (tag : String) (i : Nat) (n : Node) : Option (Nat × Node) :=
  match n with
  | .element _ _ cs => findIdxL tag (i + 1) cs
  | _ => none
def findIdxL (tag : String) (i : Nat) : List Node → Option (Nat × Node)
  | [] => none
  | c :: rest =>
    match c with
    | .element t _ _ =>
      if t = tag then some (i, c)
      else
        match findIdxIn tag i c with
        | some r => some r
        | none => findIdxL tag (i + nodeSize c) rest
    | _ => findIdxL tag (i + nodeSize c) rest
end

/-- `node.find(tag)` without the index. -/
def findTagNode (tag : String) (n : Node) : Option Node :=
  (findIdxIn tag 0 n).map (fun p => p.2)

/-! ### Table helpers -/

/- `row.find_all(cell_tags)` (recursive): all descendant elements whose tag is
in `tags`, in pre-order; bs4 also descends into matched elements. -/
mutual
def findCellsIn (tags : List String) (n : Node) : List Node :=
  match n with
  | .element _ _ cs => findCellsL tags cs
  | _ => []
def findCellsL (tags : List String) : List Node → List Node
  | [] => []
  | c :: rest =>
    match c with
    | .element t _ _ =>
      (if t ∈ tags then [c] else []) ++ findCellsIn tags c ++ findCellsL tags rest
    | _ => findCellsL tags rest
end

/- `table.find_all('tr')`, each row paired with whether it sits inside a
`thead` element below the table (which is what `row.find_parent('thead')`
observes for a row of this table). -/
mutual
def findTrsIn (inThead : Bool) (n : Node) : List (Node × Bool) :=
  match n with
  | .element t _ cs => findTrsL (inThead || t = "thead") cs
  | _ => []
def findTrsL (inThead : Bool) : List Node → List (Node × Bool)
  | [] => []
  | c :: rest =>
    match c with
    | .element t _ _ =>
      (if t = "tr" then [(c, inThead)] else []) ++
        findTrsIn (inThead || t = "thead") c ++ findTrsL inThead rest
    | _ => findTrsL inThead rest
end

/-- `table.find_all('tr')` with the `thead`-ancestor flag per row. -/
def findTrs (n : Node) : List (Node × Bool) :=
  match n with
  | .element _ _ cs => findTrsL false cs
  | _ => []

/-! ### Table classification (`_classify_table`) -/

/-- Consume one match of the regex `\d+[.,]?\d*[%$]?` starting at the head of
`cs` (known to be a digit); greedy, and no backtracking is ever needed because
every part after `\d+` is optional. -/
def munchNumber (cs : List Char) : List Char :=
  let r1 := cs.dropWhile Char.isDigit
  let r2 :=
    match r1 with
    | d :: ds => if d = '.' || d = ',' then ds.dropWhile Char.isDigit else r1
    | [] => r1
  match r2 with
  | p :: ps => if p = '%' || p = '$' then ps else r2
  | [] => r2

/-- `len(re.findall(r'\d+[.,]?\d*[%$]?', text))`: left-to-right non-overlapping
scan.  The fuel argument (initially the text length, an upper bound on the
number of scan steps since every step consumes at least one character) only
makes the recursion structural. -/
def countNumbersAux : Nat → List Char → Nat
  | 0, _ => 0
  | _ + 1, [] => 0
  | fuel + 1, c :: cs =>
    if c.isDigit then 1 + countNumbersAux fuel (munchNumber (c :: cs))
    else countNumbersAux fuel cs

def countNumbers (s : String) : Nat :=
  countNumbersAux (s.toList.length + 1) s.toList

/-- `_classify_table(table)`. -/
def classify_table (n : Node) : String :=
  let table_classes :=
    pyLower (String.intercalate " " (getClasses (match n with
      | .element _ a _ => a
      | _ => [])))
  if content_table_indicators.any (fun ind => strContains table_classes ind) then
    "content"
  else if technical_table_indicators.any (fun ind => strContains table_classes ind) then
    "technical"
  else
    let text_content := pyLower (getTextRaw n)
    if countNumbers text_content > 5 ||
        content_table_indicators.any (fun ind => strContains text_content ind) then
      "content"
    else if ["home", "about", "contact", "menu", "navigation"].any
        (fun ind => strContains text_content ind) then
      "technical"
    else
      "content"

/-! ### Block formatters -/

/-- `_process_heading(element)`: the level is the literal second character of
the tag name (`element.name[1]`); the formatter always returns the labelled
string, even when the text content is empty. -/
def process_heading (n : Node) : String :=
  let level :=
    match (tagOf n).toList.drop 1 with
    | c :: _ => String.mk [c]
    | [] => ""
  "Section (Level " ++ level ++ "): " ++ getTextStrip n

/-- `_process_paragraph(element)`. -/
def process_paragraph (n : Node) : String :=
  getTextStrip n

/-- `_process_quote(element)`: always labelled, even when the text is empty. -/
def process_quote (n : Node) : String :=
  "Quote: " ++ getTextStrip n

/-- `element.find_all('li', recursive=False)`: direct children that are `li`
elements, in document order. -/
def directLis (n : Node) : List Node :=
  (childrenOf n).filter (fun c =>
    match c with
    | .element t _ _ => t = "li"
    | _ => false)

/-- The loop of `_process_list`: `enumerate(lis, 1)` with items of empty
stripped text skipped; note the 1-based counter advances over skipped items
too. -/
def process_list_items (list_type : String) : Nat → List Node → List String
  | _, [] => []
  | i, li :: rest =>
    let item_text := getTextStrip li
    let tail_items := process_list_items list_type (i + 1) rest
    if item_text ≠ "" then
      (if list_type = "numbered" then toString i ++ ". " ++ item_text
       else "• " ++ item_text) :: tail_items
    else tail_items

/-- `_process_list(element)`: the empty string models "no block". -/
def process_list (n : Node) : String :=
  let list_type := if tagOf n = "ol" then "numbered" else "bulleted"
  let items := process_list_items list_type 1 (directLis n)
  if ¬items.isEmpty then
    "List (" ++ list_type ++ "):\n" ++ String.intercalate "\n" items
  else ""

/-- `_process_table(element)`: the empty string models "no block". -/
def process_table (n : Node) : String :=
  if classify_table n = "technical" then ""
  else
    let attrs := match n with | .element _ a _ => a | _ => []
    let table_title :=
      match findTagNode "caption" n with
      | some cap =>
        if nodeTruthy cap then getTextStrip cap
        else
          let title_attr :=
            if getAttrStr attrs "title" ≠ "" then getAttrStr attrs "title"
            else getAttrStr attrs "data-title"
          if title_attr ≠ "" then title_attr else "Data"
      | none =>
        let title_attr :=
          if getAttrStr attrs "title" ≠ "" then getAttrStr attrs "title"
          else getAttrStr attrs "data-title"
        if title_attr ≠ "" then title_attr else "Data"
    let all_rows := findTrs n
    match all_rows with
    | [] => ""
    | (first_row, first_in_thead) :: later_rows =>
      let is_header := ¬(findCellsIn ["th"] first_row).isEmpty ∨ first_in_thead
      let data_rows :=
        if is_header then later_rows.map (fun p => p.1)
        else all_rows.map (fun p => p.1)
      let header_names :=
        if is_header then
          ((findCellsIn ["th", "td"] first_row).map getTextStrip).filter
            (fun s => s ≠ "")
        else []
      let column_names :=
        if header_names.isEmpty ∧ ¬data_rows.isEmpty then
          match data_rows with
          | fdr :: _ =>
            (List.range (findCellsIn ["td", "th"] fdr).length).map
              (fun k => "Column" ++ toString (k + 1))
          | [] => header_names
        else header_names
      if column_names.isEmpty then ""
      else
        let formatted_rows := data_rows.filterMap (fun row =>
          let cells := (findCellsIn ["td", "th"] row).map getTextStrip
          if cells.isEmpty then none
          else
            let row_parts := cells.enum.filterMap (fun p =>
              if p.1 < column_names.length then
                some (column_names.getD p.1 "" ++ ": " ++ p.2)
              else none)
            if row_parts.isEmpty then none
            else some (String.intercalate " | " row_parts))
        if formatted_rows.isEmpty then ""
        else "Table: " ++ table_title ++ "\n" ++ String.intercalate "\n" formatted_rows

/-! ### The content extractor (`_extract_content_recursive`) -/

/-- The tag list of line 174 of `parser.py`, deciding which direct children of
a generic container count as block-level and are recursed into. -/
def block_child_tags : List String :=
  ["div", "p", "section", "article", "h1", "h2", "h3", "h4", "h5", "h6",
   "ul", "ol", "table", "blockquote"]

/-- Whether a child node makes `has_block_children` true in the scan of a
generic container: a `Tag` whose lowered name is in `block_child_tags`. -/
def is_block_child : Node → Bool
  | .element t _ _ => pyLower t ∈ block_child_tags
  | _ => false

/-- `content_parts.append(content)` guarded by `if content:` (Python string
truthiness), recording the emitting element's pre-order index. -/
def appendContent (parts : List (Nat × String)) (i : Nat) (content : String) :
    List (Nat × String) :=
  if content ≠ "" then parts ++ [(i, content)] else parts

/- `_extract_content_recursive(element, content_parts, processed_elements)`.

The Python function mutates two collections; here they are threaded:
`content_parts` is the list of blocks emitted so far and `processed` the set of
already-visited elements.  Python keys `processed_elements` by `id(element)`;
since every node of the tree is a distinct object, this is modelled by the
node's pre-order index `i` in the document (the stable "arena index" the spec's
design notes propose): the node at index `i` has its children at consecutive
index ranges starting at `i + 1`, each child `c` occupying `nodeSize c`
indices.  Each emitted block is paired with the index of its source element;
mapping `Prod.snd` over the result list recovers exactly the strings the
Python code accumulates.

`scan_children` is the `for child in element.children` loop of the generic
container branch, threading the loop state `direct_text` (the accumulated
direct text; a `Comment` is a `NavigableString` subclass in bs4 and so also
feeds it, though `parse` never reaches one post-removal) and
`has_block_children`. -/
mutual
def extract_content_recursive (i : Nat) (n : Node) (content_parts : List (Nat × String))
    (processed : List Nat) : List (Nat × String) × List Nat :=
  match n with
  | .text _ => (content_parts, processed)
  | .comment _ => (content_parts, processed)
  | .element tag _ children =>
    if i ∈ processed then (content_parts, processed)
    else if is_technical_element n then (content_parts, processed)
    else
      let processed1 := i :: processed
      let tag_name := pyLower tag
      if tag_name ∈ ["h1", "h2", "h3", "h4", "h5", "h6"] then
        (appendContent content_parts i (process_heading n), processed1)
      else if tag_name ∈ ["ul", "ol"] then
        (appendContent content_parts i (process_list n), processed1)
      else if tag_name = "table" then
        (appendContent content_parts i (process_table n), processed1)
      else if tag_name = "blockquote" then
        (appendContent content_parts i (process_quote n), processed1)
      else if tag_name = "p" then
        (appendContent content_parts i (process_paragraph n), processed1)
      else
        let r := scan_children (i + 1) children content_parts processed1 "" false
        let direct_text := pyStrip r.2.1
        let has_block := r.2.2
        if direct_text ≠ "" ∧ direct_text.length ≥ 10 ∧ has_block = false then
          (r.1.1 ++ [(i, direct_text)], r.1.2)
        else if has_block = false then
          let text_content := getTextStrip n
          if text_content ≠ "" ∧ text_content.length ≥ 10 then
            (r.1.1 ++ [(i, text_content)], r.1.2)
          else (r.1.1, r.1.2)
        else (r.1.1, r.1.2)

def scan_children (ci : Nat) (cs : List Node) (content_parts : List (Nat × String))
    (processed : List Nat) (direct_text : String) (has_block : Bool) :
    (List (Nat × String) × List Nat) × String × Bool :=
  match cs with
  | [] => ((content_parts, processed), direct_text, has_block)
  | c :: rest =>
    match c with
    | .text s =>
      let t := pyStrip s
      let dt := if t ≠ "" then direct_text ++ t ++ " " else direct_text
      scan_children (ci + nodeSize c) rest content_parts processed dt has_block
    | .comment s =>
      let t := pyStrip s
      let dt := if t ≠ "" then direct_text ++ t ++ " " else direct_text
      scan_children (ci + nodeSize c) rest content_parts processed dt has_block
    | .element _ _ _ =>
      if is_block_child c then
        let r := extract_content_recursive ci c content_parts processed
        scan_children (ci + nodeSize c) rest r.1 r.2 direct_text true
      else
        scan_children (ci + nodeSize c) rest content_parts processed direct_text has_block
end

/-- Python `x or y` over optional find results: keep `x` when it is a truthy
node, otherwise fall back to `y`. -/
def pickOr (o : Option (Nat × Node)) (d : Nat × Node) : Nat × Node :=
  match o with
  | some (j, b) => if nodeTruthy b then (j, b) else d
  | none => d

/-- The traversal root chosen by `_extract_structured_content`:
`body = soup.find('body') or soup` then
`main_content = body.find('main') or body.find('article') or body`, with the
soup node at pre-order index 0. -/
def main_content_of (soup : Node) : Nat × Node :=
  let body := pickOr (findIdxIn "body" 0 soup) (0, soup)
  pickOr (findIdxIn "main" body.1 body.2)
    (pickOr (findIdxIn "article" body.1 body.2) body)

/-- `_extract_structured_content(soup)` instrumented with the pre-order index
of each block's source element. -/
def extract_structured_content_idx (soup : Node) : List (Nat × String) :=
  (extract_content_recursive (main_content_of soup).1 (main_content_of soup).2 [] []).1

/-- `_extract_structured_content(soup)`: `'\n\n'.join(content_parts)`. -/
def extract_structured_content (soup : Node) : String :=
  String.intercalate "\n\n" ((extract_structured_content_idx soup).map Prod.snd)

/-! ### Exceptions (`exceptions.py`) and `parse` -/

/-- The classes of exception that can travel through `parse`:
`HTMLParsingError(Exception)`, its subclasses `InvalidHTMLError` and
`EmptyContentError`, and arbitrary foreign exception classes (anything the DOM
Access Layer may raise), identified by name. -/
inductive ExcClass where
  | htmlParsingError
  | invalidHTMLError
  | emptyContentError
  | otherError (name : String)
deriving DecidableEq

/-- A Python exception value: its class, its message (`str(e)`), and its
`__cause__` chain. -/
inductive Exc where
  | mk (cls : ExcClass) (msg : String) (cause : Option Exc)

def Exc.cls : Exc → ExcClass
  | .mk c _ _ => c

def Exc.msg : Exc → String
  | .mk _ m _ => m

def Exc.cause : Exc → Option Exc
  | .mk _ _ c => c

/-- `isinstance(e, HTMLParsingError)`: true exactly for `HTMLParsingError`
itself and its two subclasses. -/
def isHTMLParsingErrorInstance (e : Exc) : Bool :=
  match e.cls with
  | .otherError _ => false
  | _ => true

/-- The body of the `try:` block of `parse`: build the soup (the DOM Access
Layer result, an external collaborator, passed in as `dom_result`), run the
removal pass, extract, and raise `EmptyContentError` when the extracted text
strips to empty. -/
def parse_try_body (dom_result : Except Exc Node) : Except Exc String :=
  match dom_result with
  | .error e => .error e
  | .ok soup =>
    let soup2 := remove_technical_elements soup
    let structured_content := extract_structured_content soup2
    if pyStrip structured_content = "" then
      .error (.mk .emptyContentError "No meaningful content found after parsing" none)
    else .ok structured_content

/-- `HTMLParser.parse(html_content)`.  The leading emptiness check raises
outside the `try`; everything raised inside the `try` — including the
`EmptyContentError` for contentless documents — is caught by
`except Exception as e` and re-raised as
`HTMLParsingError(f"Failed to parse HTML: {str(e)}") from e`. -/
def parse (dom_result : Except Exc Node) (html_content : String) : Except Exc String :=
  if html_content = "" ∨ pyStrip html_content = "" then
    .error (.mk .emptyContentError "HTML content is empty" none)
  else
    match parse_try_body dom_result with
    | .ok s => .ok s
    | .error e =>
      .error (.mk .htmlParsingError ("Failed to parse HTML: " ++ e.msg) (some e))

/-- The class of the error result, if any. -/
def errClsOf : Except Exc String → Option ExcClass
  | .error e => some e.cls
  | .ok _ => none

/-- The message of the error result, if any. -/
def errMsgOf : Except Exc String → Option String
  | .error e => some e.msg
  | .ok _ => none

/-! ### Concrete documents used to settle individual claims -/

/-- The soup lxml builds for `"<p></p>"`: an empty paragraph inside
`html`/`body`. -/
def domPOnly : Node :=
  .element "[document]" []
    [.element "html" [] [.element "body" [] [.element "p" [] []]]]

/-- A container `div` with short direct text and a `figure` child wrapping a
paragraph of block content. -/
def c3_soup : Node :=
  .element "[document]" []
    [.element "html" [] [.element "body" []
      [.element "div" []
        [.text "Note",
         .element "figure" []
           [.element "p" [] [.text "Some long paragraph text"]]]]]]

/-- `<table class="data-table">` with a `th` header row `Region, Support %`
and one data row `Urban, 65`; no caption, no title attributes. -/
def c7_table : Node :=
  .element "table" [("class", "data-table")]
    [.element "tr" [] [.element "th" [] [.text "Region"],
       .element "th" [] [.text "Support %"]],
     .element "tr" [] [.element "td" [] [.text "Urban"],
       .element "td" [] [.text "65"]]]

/-- `<ul><li>A</li><li></li><li>B</li></ul>`. -/
def c8_ul : Node :=
  .element "ul" []
    [.element "li" [] [.text "A"],
     .element "li" [] [],
     .element "li" [] [.text "B"]]

/-- A document whose only content element is an empty `<h2>`. -/
def c9_soup : Node :=
  .element "[document]" []
    [.element "html" [] [.element "body" [] [.element "h2" [] []]]]

/-- Modelled from the spec's words for the list formatter (claim C8):
"Enumerate only direct `li` children in document order; numbered lists prefix
each item with its 1-based index and a period; bulleted lists prefix each item
with a bullet glyph.  Items with empty trimmed text are skipped; if no items
remain, produce no block."  Stated with an `Option` result ("no block" is
`none`) for comparison against `process_list`, whose empty string a caller
drops. -/
def list_block_spec (n : Node) : Option String :=
  let numbered := tagOf n = "ol"
  let label := if numbered then "List (numbered):" else "List (bulleted):"
  let items := (List.enumFrom 1 (directLis n)).filterMap (fun p =>
    if getTextStrip p.2 = "" then none
    else some ((if numbered then toString p.1 ++ ". " else "• ") ++ getTextStrip p.2))
  if items.isEmpty then none
  else some (label ++ "\n" ++ String.intercalate "\n" items)

/-! ### Helper lemmas -/

/-- A dispatch branch of `extract_content_recursive` (formatter result pushed
through `appendContent`, element marked processed) satisfies the traversal
invariants. -/
theorem push_case (content : String) {res : List (Nat × String) × List Nat}
    {parts : List (Nat × String)} {i : Nat} {processed : List Nat} {sz : Nat}
    (heq : res = (appendContent parts i content, i :: processed)) (hsz : 0 < sz) :
    ∃ new pnew, res = (parts ++ new, pnew ++ processed) ∧
      (∀ p ∈ new, i ≤ p.1 ∧ p.1 < i + sz) ∧
      List.Pairwise (fun a b => a.1 < b.1) new ∧
      (∀ j ∈ pnew, i ≤ j ∧ j < i + sz) := by
  subst heq
  refine ⟨if content ≠ "" then [(i, content)] else [], [i], ?_, ?_, ?_, ?_⟩
  · unfold appendContent
    split <;> simp
  · split
    · intro p hp
      rw [List.mem_singleton] at hp
      subst hp
      omega
    · intro p hp
      cases hp
  · split <;> simp
  · intro j hj
    rw [List.mem_singleton] at hj
    omega

/- The central traversal invariant.  Entering a visit at pre-order index `i`
with every already-processed index below `i`, the visit appends a batch of
blocks whose source indices lie inside the subtree's index range
`[i, i + nodeSize n)` and strictly increase, and records processed indices
only inside that range.  For the child scan the same holds over the sibling
range, together with: if `has_block_children` comes back `false` the scan
emitted nothing (it never recursed), and the flag is monotone. -/
mutual
theorem extract_rec_spec (i : Nat) (n : Node) (parts : List (Nat × String))
    (processed : List Nat) (hinv : ∀ j ∈ processed, j < i) :
    ∃ new pnew,
      extract_content_recursive i n parts processed = (parts ++ new, pnew ++ processed) ∧
      (∀ p ∈ new, i ≤ p.1 ∧ p.1 < i + nodeSize n) ∧
      List.Pairwise (fun a b => a.1 < b.1) new ∧
      (∀ j ∈ pnew, i ≤ j ∧ j < i + nodeSize n) := by
  match n with
  | .text s =>
    exact ⟨[], [], by simp [extract_content_recursive], by simp, by simp, by simp⟩
  | .comment s =>
    exact ⟨[], [], by simp [extract_content_recursive], by simp, by simp, by simp⟩
  | .element tag a cs =>
    have hni : i ∉ processed := fun hmem => Nat.lt_irrefl i (hinv i hmem)
    have hsz : 0 < nodeSize (Node.element tag a cs) := by
      simp only [nodeSize]
      omega
    by_cases htech : is_technical_element (Node.element tag a cs)
    · exact ⟨[], [], by simp [extract_content_recursive, hni, htech], by simp, by simp,
        by simp⟩
    · by_cases h1 : pyLower tag ∈ ["h1", "h2", "h3", "h4", "h5", "h6"]
      · exact push_case (process_heading (Node.element tag a cs))
          (by simp [extract_content_recursive, hni, htech, h1]) hsz
      · by_cases h2 : pyLower tag ∈ ["ul", "ol"]
        · exact push_case (process_list (Node.element tag a cs))
            (by simp [extract_content_recursive, hni, htech, h1, h2]) hsz
        · by_cases h3 : pyLower tag = "table"
          · exact push_case (process_table (Node.element tag a cs))
              (by simp [extract_content_recursive, hni, htech, h1, h2, h3]) hsz
          · by_cases h4 : pyLower tag = "blockquote"
            · exact push_case (process_quote (Node.element tag a cs))
                (by simp [extract_content_recursive, hni, htech, h1, h2, h3, h4]) hsz
            · by_cases h5 : pyLower tag = "p"
              · exact push_case (process_paragraph (Node.element tag a cs))
                  (by simp [extract_content_recursive, hni, htech, h1, h2, h3, h4, h5]) hsz
              · have hinv1 : ∀ j ∈ i :: processed, j < i + 1 := by
                  intro j hj
                  rcases List.mem_cons.mp hj with h | h
                  · omega
                  · exact Nat.lt_succ_of_lt (hinv j h)
                obtain ⟨new, pnew, dtO, hbO, heq, hbd, hpw, hpbd, hhb, _hmono⟩ :=
                  scan_children_spec (i + 1) cs parts (i :: processed) "" false hinv1
                by_cases hc1 : pyStrip dtO ≠ "" ∧ (pyStrip dtO).length ≥ 10 ∧
                    hbO = false
                · have hnew : new = [] := hhb hc1.2.2
                  refine ⟨[(i, pyStrip dtO)], pnew ++ [i], ?_, ?_, by simp, ?_⟩
                  · simp [extract_content_recursive, hni, htech, h1, h2, h3, h4, h5, heq,
                      hc1, hnew]
                  · intro p hp
                    rw [List.mem_singleton] at hp
                    subst hp
                    simp only [nodeSize]
                    omega
                  · intro j hj
                    simp only [nodeSize]
                    rcases List.mem_append.mp hj with h | h
                    · have := hpbd j h
                      simp only at this
                      omega
                    · rw [List.mem_singleton] at h
                      omega
                · by_cases hb0 : hbO = false
                  · have hnew : new = [] := hhb hb0
                    have hAB : ¬(pyStrip dtO ≠ "" ∧ (pyStrip dtO).length ≥ 10) :=
                      fun h => hc1 ⟨h.1, h.2, hb0⟩
                    by_cases hc2 : getTextStrip (Node.element tag a cs) ≠ "" ∧
                        (getTextStrip (Node.element tag a cs)).length ≥ 10
                    · refine ⟨[(i, getTextStrip (Node.element tag a cs))], pnew ++ [i],
                        ?_, ?_, by simp, ?_⟩
                      · simp [extract_content_recursive, hni, htech, h1, h2, h3, h4, h5,
                          heq, hAB, hb0, hc2, hnew]
                      · intro p hp
                        rw [List.mem_singleton] at hp
                        subst hp
                        simp only [nodeSize]
                        omega
                      · intro j hj
                        simp only [nodeSize]
                        rcases List.mem_append.mp hj with h | h
                        · have := hpbd j h
                          omega
                        · rw [List.mem_singleton] at h
                          omega
                    · refine ⟨[], pnew ++ [i], ?_, by simp, by simp, ?_⟩
                      · simp [extract_content_recursive, hni, htech, h1, h2, h3, h4, h5,
                          heq, hAB, hb0, hc2, hnew]
                      · intro j hj
                        simp only [nodeSize]
                        rcases List.mem_append.mp hj with h | h
                        · have := hpbd j h
                          omega
                        · rw [List.mem_singleton] at h
                          omega
                  · have hb1 : hbO = true := by
                      revert hb0
                      cases hbO <;> simp
                    refine ⟨new, pnew ++ [i], ?_, ?_, hpw, ?_⟩
                    · simp [extract_content_recursive, hni, htech, h1, h2, h3, h4, h5,
                        heq, hb1]
                    · intro p hp
                      have := hbd p hp
                      simp only [nodeSize]
                      omega
                    · intro j hj
                      simp only [nodeSize]
                      rcases List.mem_append.mp hj with h | h
                      · have := hpbd j h
                        omega
                      · rw [List.mem_singleton] at h
                        omega

theorem scan_children_spec (ci : Nat) (cs : List Node) (parts : List (Nat × String))
    (processed : List Nat) (dt : String) (hb : Bool)
    (hinv : ∀ j ∈ processed, j < ci) :
    ∃ new pnew dtO hbO,
      scan_children ci cs parts processed dt hb = ((parts ++ new, pnew ++ processed), dtO, hbO) ∧
      (∀ p ∈ new, ci ≤ p.1 ∧ p.1 < ci + nodeSizeL cs) ∧
      List.Pairwise (fun a b => a.1 < b.1) new ∧
      (∀ j ∈ pnew, ci ≤ j ∧ j < ci + nodeSizeL cs) ∧
      (hbO = false → new = []) ∧
      (hb = true → hbO = true) := by
  match cs with
  | [] =>
    exact ⟨[], [], dt, hb, by simp [scan_children], by simp, by simp, by simp,
      fun _ => rfl, fun h => h⟩
  | .text s :: rest =>
    have hinv' : ∀ j ∈ processed, j < ci + nodeSize (Node.text s) := by
      intro j hj
      have := hinv j hj
      simp only [nodeSize]
      omega
    obtain ⟨new, pnew, dtO, hbO, heq, hbd, hpw, hpbd, hhb, hmono⟩ :=
      scan_children_spec (ci + nodeSize (Node.text s)) rest parts processed
        (if pyStrip s ≠ "" then dt ++ pyStrip s ++ " " else dt) hb hinv'
    refine ⟨new, pnew, dtO, hbO, ?_, ?_, hpw, ?_, hhb, hmono⟩
    · simp only [scan_children]
      exact heq
    · intro p hp
      have := hbd p hp
      simp only [nodeSizeL, nodeSize] at this ⊢
      omega
    · intro j hj
      have := hpbd j hj
      simp only [nodeSizeL, nodeSize] at this ⊢
      omega
  | .comment s :: rest =>
    have hinv' : ∀ j ∈ processed, j < ci + nodeSize (Node.comment s) := by
      intro j hj
      have := hinv j hj
      simp only [nodeSize]
      omega
    obtain ⟨new, pnew, dtO, hbO, heq, hbd, hpw, hpbd, hhb, hmono⟩ :=
      scan_children_spec (ci + nodeSize (Node.comment s)) rest parts processed
        (if pyStrip s ≠ "" then dt ++ pyStrip s ++ " " else dt) hb hinv'
    refine ⟨new, pnew, dtO, hbO, ?_, ?_, hpw, ?_, hhb, hmono⟩
    · simp only [scan_children]
      exact heq
    · intro p hp
      have := hbd p hp
      simp only [nodeSizeL, nodeSize] at this ⊢
      omega
    · intro j hj
      have := hpbd j hj
      simp only [nodeSizeL, nodeSize] at this ⊢
      omega
  | Node.element t a gs :: rest =>
    by_cases hbc : is_block_child (Node.element t a gs)
    · obtain ⟨n1, p1, heq1, hbd1, hpw1, hpbd1⟩ :=
        extract_rec_spec ci (Node.element t a gs) parts processed hinv
      have hinv2 : ∀ j ∈ p1 ++ processed, j < ci + nodeSize (Node.element t a gs) := by
        intro j hj
        rcases List.mem_append.mp hj with h | h
        · exact (hpbd1 j h).2
        · have := hinv j h
          omega
      obtain ⟨n2, p2, dtO, hbO, heq2, hbd2, hpw2, hpbd2, hhb2, hmono2⟩ :=
        scan_children_spec (ci + nodeSize (Node.element t a gs)) rest (parts ++ n1)
          (p1 ++ processed) dt true hinv2
      refine ⟨n1 ++ n2, p2 ++ p1, dtO, hbO, ?_, ?_, ?_, ?_, ?_, ?_⟩
      · simp only [scan_children, hbc, if_true]
        rw [heq1]
        simpa [List.append_assoc] using heq2
      · intro p hp
        simp only [nodeSizeL]
        rcases List.mem_append.mp hp with h | h
        · have := hbd1 p h
          omega
        · have := hbd2 p h
          simp only [nodeSizeL] at this
          omega
      · rw [List.pairwise_append]
        refine ⟨hpw1, hpw2, ?_⟩
        intro x hx y hy
        have hx1 := hbd1 x hx
        have hy1 := hbd2 y hy
        omega
      · intro j hj
        simp only [nodeSizeL]
        rcases List.mem_append.mp hj with h | h
        · have := hpbd2 j h
          simp only [nodeSizeL] at this
          omega
        · have := hpbd1 j h
          omega
      · intro hfalse
        have hT : hbO = true := hmono2 rfl
        rw [hT] at hfalse
        cases hfalse
      · intro _
        exact hmono2 rfl
    · have hinv' : ∀ j ∈ processed, j < ci + nodeSize (Node.element t a gs) := by
        intro j hj
        have := hinv j hj
        omega
      obtain ⟨new, pnew, dtO, hbO, heq, hbd, hpw, hpbd, hhb, hmono⟩ :=
        scan_children_spec (ci + nodeSize (Node.element t a gs)) rest parts processed
          dt hb hinv'
      refine ⟨new, pnew, dtO, hbO, ?_, ?_, hpw, ?_, hhb, hmono⟩
      · simp only [scan_children, hbc, if_false]
        exact heq
      · intro p hp
        have := hbd p hp
        simp only [nodeSizeL] at this ⊢
        omega
      · intro j hj
        have := hpbd j hj
        simp only [nodeSizeL] at this ⊢
        omega
end

/-- Blocks appended by a visit started on empty accumulators carry strictly
increasing source indices. -/
theorem extract_rec_pairwise (i : Nat) (n : Node) :
    List.Pairwise (fun a b => a.1 < b.1) ((extract_content_recursive i n [] []).1) := by
  obtain ⟨new, pnew, heq, _, hpw, _⟩ :=
    extract_rec_spec i n [] [] (by intro j hj; cases hj)
  rw [heq]
  simpa using hpw

/-- The item loop of `_process_list` written as a `filterMap` over
`enumerate(lis, k)`. -/
theorem process_list_items_eq (lt : String) (k : Nat) (lis : List Node) :
    process_list_items lt k lis =
      (List.enumFrom k lis).filterMap (fun p =>
        if getTextStrip p.2 = "" then none
        else some ((if lt = "numbered" then toString p.1 ++ ". " else "• ") ++
          getTextStrip p.2)) := by
  induction lis generalizing k with
  | nil => simp [process_list_items, List.enumFrom]
  | cons li rest ih =>
    by_cases h : getTextStrip li = ""
    · simp [process_list_items, List.enumFrom, h, ih]
    · by_cases hn : lt = "numbered"
      · simp [process_list_items, List.enumFrom, h, hn]
        simpa [hn] using ih (k + 1)
      · simp [process_list_items, List.enumFrom, h, hn]
        simpa [hn] using ih (k + 1)

/-- A labelled list block is never the empty string. -/
theorem list_label_ne_empty (lt body : String) :
    ("List (" ++ lt ++ "):\n" ++ body) ≠ "" := by
  intro h
  have h2 := congrArg String.length h
  rw [String.length_append, String.length_append, String.length_append] at h2
  have h3 : String.length "List (" = 6 := rfl
  have h4 : String.length "" = 0 := rfl
  omega

/-- String concatenation is associative. -/
theorem str_append_assoc (x y z : String) : (x ++ y) ++ z = x ++ (y ++ z) := by
  apply String.ext
  simp [String.data_append, List.append_assoc]

/-- Relates the empty-string "no block" convention of `_process_list` to the
`Option` result of `list_block_spec`, for one item list. -/
theorem list_option_eq (lt lbl : String) (hlbl : "List (" ++ lt ++ "):" = lbl)
    (items : List String) :
    (if (if ¬items.isEmpty then
          "List (" ++ lt ++ "):\n" ++ String.intercalate "\n" items else "") = ""
     then none
     else some (if ¬items.isEmpty then
          "List (" ++ lt ++ "):\n" ++ String.intercalate "\n" items else "")) =
    (if items.isEmpty then none
     else some (lbl ++ "\n" ++ String.intercalate "\n" items)) := by
  by_cases hi : items.isEmpty
  · simp [hi]
  · have hne := list_label_ne_empty lt (String.intercalate "\n" items)
    simp only [hi, Bool.false_eq_true, not_false_iff, if_true, ite_true, if_neg hne,
      ite_false, Bool.not_eq_true]
    subst hlbl
    rw [str_append_assoc ("List (" ++ lt) "):" "\n"]
    rfl

/-! ### Claim theorems -/

/-- Claim C1.  The claim says an exception of the `EmptyContentError` type
reaches the caller when a structurally valid parse extracts no content.  The
code contradicts its own docstring here: the `EmptyContentError` raised inside
the `try` block is caught by its own `except Exception` clause and re-raised
as a plain `HTMLParsingError`, so for the non-empty input `"<p></p>"` (whose
DOM parses fine but yields no content) the escaping exception is the generic
wrapper, not an `EmptyContentError`; the original condition survives only as
`__cause__`. -/
theorem c1_no_content_error_is_wrapped :
    parse (.ok domPOnly) "<p></p>" =
      .error (.mk .htmlParsingError
        "Failed to parse HTML: No meaningful content found after parsing"
        (some (.mk .emptyContentError "No meaningful content found after parsing" none))) ∧
    decide (errClsOf (parse (.ok domPOnly) "<p></p>") = some ExcClass.emptyContentError) =
      false := by
  exact ⟨rfl, by decide⟩

/-- Claim C2.  The claim (and the code's own "exact matches only" comments)
says removal by class requires a class token exactly equal to a technical
class.  In fact the removal pass's lambda performs a substring test on each
token, so the token `header-main`, which merely contains `header`, triggers
removal of the whole subtree — while the extraction-time re-check
`_is_technical_element` really does use exact membership. -/
theorem c2_class_removal_uses_substrings :
    class_removal_match [("class", "header-main")] = true ∧
    is_technical_element (.element "div" [("class", "header-main")] []) = false ∧
    (remove_technical_children
      [.element "div" [("class", "header-main")]
        [.element "p" [] [.text "Political analysis text here."]]]).isEmpty = true :=
  ⟨rfl, rfl, rfl⟩

/-- Claim C3 (counterexample).  A `div` whose only element child is a
`figure` wrapping a long paragraph: the claim predicts the `figure` counts as
a block child and is recursed into (so the paragraph would be emitted as its
own block and the container's text dropped), but the scan leaves
`has_block_children` false and the container falls back to emitting its
aggregate text as a single block sourced at the `div` (pre-order index 3). -/
theorem c3_figure_child_not_recursed :
    extract_structured_content_idx c3_soup = [(3, "NoteSome long paragraph text")] ∧
    (scan_children 4
        [.text "Note",
         .element "figure" [] [.element "p" [] [.text "Some long paragraph text"]]]
        [] [3, 2] "" false).2.2 = false ∧
    is_block_child
      (.element "figure" [] [.element "p" [] [.text "Some long paragraph text"]]) = false :=
  ⟨rfl, rfl, rfl⟩

/-- Claim C3 (amended).  During the generic-container scan a direct child
counts as a block child exactly when it is an element whose lowered tag is in
the code's list `div, p, section, article, h1..h6, ul, ol, table, blockquote`;
the remaining container-set tags of the spec (`main`, `header`, `aside`,
`span`, `figure`, `figcaption`, `details`, `summary`) do not count and are
not recursed into. -/
theorem c3_block_child_characterisation :
    (∀ ci cs parts processed dt hb,
        (scan_children ci cs parts processed dt hb).2.2 = (hb || cs.any is_block_child)) ∧
    (["main", "header", "aside", "span", "figure", "figcaption", "details",
        "summary"].all (fun t => !is_block_child (.element t [] []))) = true ∧
    (["div", "p", "section", "article", "h1", "h2", "h3", "h4", "h5", "h6",
        "ul", "ol", "table", "blockquote"].all
        (fun t => is_block_child (.element t [] []))) = true := by
  refine ⟨?_, rfl, rfl⟩
  intro ci cs
  induction cs generalizing ci with
  | nil =>
    intro parts processed dt hb
    simp [scan_children]
  | cons c rest ih =>
    intro parts processed dt hb
    cases c with
    | text s => simp [scan_children, is_block_child, ih]
    | comment s => simp [scan_children, is_block_child, ih]
    | element t a gs =>
      by_cases hbc : is_block_child (Node.element t a gs)
      · simp [scan_children, hbc, ih]
      · simp [scan_children, hbc, ih]

/-- Claim C4.  Output Blocks carry strictly increasing pre-order indices of
their source elements: the emitted sequence respects the document order of a
pre-order, depth-first, left-to-right traversal, for every input tree. -/
theorem c4_blocks_follow_document_order (soup : Node) :
    List.Pairwise (· < ·) ((extract_structured_content_idx soup).map Prod.fst) := by
  unfold extract_structured_content_idx
  exact List.pairwise_map.mpr (extract_rec_pairwise _ _)

/-- Claim C5.  Each Output Block is paired with the pre-order index of the one
element that produced it, and no element index occurs twice: no element
contributes to more than one Output Block, for every input tree. -/
theorem c5_no_element_emits_twice (soup : Node) :
    ((extract_structured_content_idx soup).map Prod.fst).Nodup := by
  unfold extract_structured_content_idx
  exact List.Pairwise.imp Nat.ne_of_lt (List.pairwise_map.mpr (extract_rec_pairwise _ _))

/-- Claim C6 (counterexample).  Markup-only inputs with no visible text do not
take the empty-input path at all: for `"<p></p>"` the failure is the generic
`HTMLParsingError` wrapper around the "no meaningful content" condition, with
a message different from `"HTML content is empty"`, and for `"<h2></h2>"`
`parse` does not even fail — it returns the label-only heading block. -/
theorem c6_markup_only_is_not_empty_input :
    errClsOf (parse (.ok domPOnly) "<p></p>") = some ExcClass.htmlParsingError ∧
    errMsgOf (parse (.ok domPOnly) "<p></p>") =
      some "Failed to parse HTML: No meaningful content found after parsing" ∧
    decide (errMsgOf (parse (.ok domPOnly) "<p></p>") = some "HTML content is empty") =
      false ∧
    parse (.ok c9_soup) "<h2></h2>" = .ok "Section (Level 2): " := by
  refine ⟨rfl, rfl, by decide, rfl⟩

/-- Claim C6 (amended).  `parse` fails with the empty-input condition
(`EmptyContentError("HTML content is empty")` reaching the caller directly)
exactly when the raw input string itself is empty or whitespace-only,
whatever the DOM Access Layer would have produced: such strings always fail
that way, and conversely an escaping error of the `EmptyContentError` class
can only arise from such a string (the only other exit of `parse` is the
generic `HTMLParsingError` wrapper).  What happens for markup-only input with
no visible text is not covered by this condition — see the counterexample. -/
theorem c6_empty_string_input (dom_result : Except Exc Node) (html : String) :
    ((html = "" ∨ pyStrip html = "") →
      parse dom_result html =
        .error (.mk .emptyContentError "HTML content is empty" none)) ∧
    (∀ e, parse dom_result html = .error e → e.cls = ExcClass.emptyContentError →
      html = "" ∨ pyStrip html = "") := by
  constructor
  · intro h
    unfold parse
    rw [if_pos h]
  · intro e he hcls
    by_cases h : html = "" ∨ pyStrip html = ""
    · exact h
    · exfalso
      unfold parse at he
      rw [if_neg h] at he
      split at he
      · simp at he
      · rw [Except.error.injEq] at he
        subst he
        exact ExcClass.noConfusion hcls

/-- Witness for `c6_empty_string_input`: both directions exercised at the
whitespace-only input `" "` with a foreign DOM-layer error standing by. -/
theorem c6_empty_string_input_witness :
    parse (.error (.mk (.otherError "XMLSyntaxError") "boom" none)) " " =
      .error (.mk .emptyContentError "HTML content is empty" none) ∧
    (" " = "" ∨ pyStrip " " = "") :=
  ⟨(c6_empty_string_input (.error (.mk (.otherError "XMLSyntaxError") "boom" none)) " ").1
      (Or.inr rfl),
   (c6_empty_string_input (.error (.mk (.otherError "XMLSyntaxError") "boom" none)) " ").2
      (.mk .emptyContentError "HTML content is empty" none) rfl rfl⟩

/-- Claim C7.  The two-row `<table class="data-table">` with header cells
`Region`, `Support %` and data row `Urban`, `65` is classified `content` and
formatted exactly as the claimed block. -/
theorem c7_data_table_block :
    classify_table c7_table = "content" ∧
    process_table c7_table = "Table: Data\nRegion: Urban | Support %: 65" :=
  ⟨rfl, rfl⟩

/-- Claim C8.  `_process_list` agrees with the spec-worded formatter
`list_block_spec` on every element (direct `li` children only, document order,
empty-trimmed items skipped, 1-based enumeration prefix for numbered lists,
bullet glyph for bulleted ones, no block when no items remain — the empty
string being the "no block" result a caller drops), and the concrete
`<ul><li>A</li><li></li><li>B</li></ul>` yields exactly the claimed block. -/
theorem c8_list_formatter_spec :
    (∀ n, (if process_list n = "" then none else some (process_list n)) =
      list_block_spec n) ∧
    process_list c8_ul = "List (bulleted):\n• A\n• B" := by
  refine ⟨?_, rfl⟩
  intro n
  by_cases ho : tagOf n = "ol"
  · simp only [process_list, list_block_spec, ho, eq_self_iff_true, if_true, ite_true,
      process_list_items_eq]
    exact list_option_eq "numbered" "List (numbered):" rfl _
  · simp only [process_list, list_block_spec, ho, if_false, ite_false,
      process_list_items_eq]
    exact list_option_eq "bulleted" "List (bulleted):" rfl _

/-- Claim C9 (counterexample).  A document whose only content element is an
empty `<h2>`: the heading formatter still returns the label-only string, the
extractor appends it (it is non-empty), and `parse` returns exactly the
label-only block `"Section (Level 2): "` — contradicting the claim that no
such block can appear. -/
theorem c9_label_only_block_emitted :
    (extract_structured_content_idx c9_soup).map Prod.snd = ["Section (Level 2): "] ∧
    parse (.ok c9_soup) "<h2></h2>" = .ok "Section (Level 2): " :=
  ⟨rfl, rfl⟩

/-- Claim C9 (amended).  The paragraph, list and table formatters do return no
block for an element with no usable content, but the heading and blockquote
formatters always return their label — an empty `<h2>` yields
`"Section (Level 2): "` and an empty blockquote yields `"Quote: "`, and these
non-empty strings are emitted as blocks. -/
theorem c9_formatters_on_empty_content :
    (∀ t a, process_paragraph (Node.element t a []) = "") ∧
    (∀ t a, process_list (Node.element t a []) = "") ∧
    (∀ t a, process_table (Node.element t a []) = "") ∧
    (∀ t a, process_quote (Node.element t a []) = "Quote: ") ∧
    process_heading (Node.element "h2" [] []) = "Section (Level 2): " := by
  refine ⟨fun t a => rfl, fun t a => rfl, ?_, fun t a => rfl, rfl⟩
  intro t a
  unfold process_table
  by_cases h : classify_table (Node.element t a []) = "technical"
  · simp [h]
  · simp [h, findTrs, findTrsL]

/-- Claim C10.  Whenever `parse` fails, the escaping exception is an instance
of `HTMLParsingError`: either the `EmptyContentError` subclass raised for
empty input, or the generic wrapper built in the `except` clause; nothing
outside the hierarchy escapes, whatever the DOM Access Layer raised. -/
theorem c10_escapes_are_html_parsing_errors (dom_result : Except Exc Node)
    (html : String) (e : Exc) (h : parse dom_result html = .error e) :
    isHTMLParsingErrorInstance e = true := by
  unfold parse at h
  split at h
  · rw [Except.error.injEq] at h
    subst h
    rfl
  · split at h
    · simp at h
    · rw [Except.error.injEq] at h
      subst h
      rfl

/-- Witness for `c10_escapes_are_html_parsing_errors`: a foreign
`XMLSyntaxError` from the DOM layer escapes wrapped as `HTMLParsingError`. -/
theorem c10_escapes_witness :
    isHTMLParsingErrorInstance
      (.mk .htmlParsingError "Failed to parse HTML: boom"
        (some (.mk (.otherError "XMLSyntaxError") "boom" none))) = true :=
  c10_escapes_are_html_parsing_errors
    (.error (.mk (.otherError "XMLSyntaxError") "boom" none)) "<p>" _ rfl

end AIPA
